import Mathlib

/-!
Verification of the feed-processing and relevance/feedback pipeline of
`script.py` (weekend-project).

Python strings are modelled as lists of Unicode code points (`PyStr`),
so character-level operations (lowercasing, whitespace splitting,
substring search) are explicit and executable.  File-system and network
side effects are modelled as explicit data: the summarizer is an oracle
returning `Except`, and per-entry effects are recorded in an event trace.
-/

/-- A Python string, as its list of Unicode code points. -/
abbrev PyStr := List Nat

/-- Code points of a Lean string literal, for writing `PyStr` constants. -/
def pyOf (s : String) : PyStr := s.data.map Char.toNat

/-- Models Python `str.lower` on one code point (ASCII range: `A`-`Z`
map to `a`-`z`; every other code point is kept unchanged, which matches
Python on the ASCII subset that the literals of this pipeline use). -/
def lowerChar (c : Nat) : Nat := if 65 ≤ c ∧ c ≤ 90 then c + 32 else c

/-- Models Python `str.lower` (per-code-point). -/
def lowerStr (s : PyStr) : PyStr := s.map lowerChar

/-- Whitespace test used by Python `str.split()` and `str.strip()`
(ASCII whitespace: tab, LF, VT, FF, CR, space). -/
def isSpaceB (c : Nat) : Bool := c = 9 || c = 10 || c = 11 || c = 12 || c = 13 || c = 32

/-- Accumulator-based core of `str.split()`: `acc` holds the current
token, reversed. Empty tokens are dropped, as the no-argument Python
`split` does. -/
def splitAux : List Nat → List Nat → List PyStr
  | [], acc => if acc = [] then [] else [acc.reverse]
  | c :: cs, acc =>
    if isSpaceB c then
      if acc = [] then splitAux cs [] else acc.reverse :: splitAux cs []
    else splitAux cs (c :: acc)

/-- Models Python `str.split()` with no arguments: split on runs of
whitespace, dropping empty pieces. -/
def pySplit (s : PyStr) : List PyStr := splitAux s []

/-- Here `startsWithB s p = true` iff `s` begins with `p`. -/
def startsWithB : List Nat → List Nat → Bool
  | _, [] => true
  | [], _ :: _ => false
  | a :: as, b :: bs => a = b && startsWithB as bs

/-- Models the Python substring test `needle in hay` (true iff `needle`
occurs contiguously in `hay`; the empty needle always matches). -/
def containsSubstr (hay needle : List Nat) : Bool :=
  startsWithB hay needle ||
    match hay with
    | [] => false
    | _ :: t => containsSubstr t needle

/-- Embeds `check_relevance(title, text, user_data, user_profile)` from
`script.py`:

    combined = f"{title.lower()} {text.lower()}"
    keywords = set(user_data.lower().split() + user_profile.lower().split())
    for kw in keywords:
        if kw in combined:
            return True
    return False

The Python `set` only deduplicates the keyword list; the returned
boolean equals "some element of the concatenated token lists occurs in
`combined`", which is what `List.any` computes. -/
def check_relevance (title text user_data user_profile : PyStr) : Bool :=
  let combined := lowerStr title ++ [32] ++ lowerStr text
  let keywords := pySplit (lowerStr user_data) ++ pySplit (lowerStr user_profile)
  keywords.any (fun kw => containsSubstr combined kw)

/-! ## Decimal formatting (`f"{n:04d}"`) -/

/-- Fuel-based decimal digit writer: `decDigitsAux fuel n` is the
decimal representation of `n` (code points 48-57) whenever
`fuel > n`; the fuel only makes the recursion structural. -/
def decDigitsAux : Nat → Nat → PyStr
  | 0, _ => []
  | fuel + 1, n => if n < 10 then [48 + n] else decDigitsAux fuel (n / 10) ++ [48 + n % 10]

/-- Decimal representation of `n` as code points. -/
def natDecimal (n : Nat) : PyStr := decDigitsAux (n + 1) n

/-- Models the Python format specifier `f"{n:04d}"` for a nonnegative
`n`: the decimal representation of `n`, left-padded with zeros to at
least four characters.  For `n < 10000` this is exactly the four decimal
digits (thousands, hundreds, tens, units); for larger `n` the padding is
inert and the result is the plain decimal representation. -/
def fmt04d (n : Nat) : PyStr :=
  if n < 10000 then
    [48 + n / 1000, 48 + n / 100 % 10, 48 + n / 10 % 10, 48 + n % 10]
  else natDecimal n

/-! ## File/folder organization -/

/-- Models `str.isalnum` on the ASCII range (digits, uppercase and
lowercase letters).  The Python `isalnum` also accepts non-ASCII letters
and digits; none of those are path separators, so the sanitization
properties proved below are insensitive to this restriction. -/
def pyIsAlnum (c : Nat) : Bool := (48 ≤ c ∧ c ≤ 57) || (65 ≤ c ∧ c ≤ 90) || (97 ≤ c ∧ c ≤ 122)

/-- The filter of `make_feed_subfolder`: keep `c` iff
`c.isalnum() or c in "-_ "`. -/
def keepChar (c : Nat) : Bool := pyIsAlnum c || c = 45 || c = 95 || c = 32

/-- Models Python `str.strip()`: drop whitespace from both ends. -/
def pyStrip (s : PyStr) : PyStr :=
  ((s.dropWhile isSpaceB).reverse.dropWhile isSpaceB).reverse

/-- The sanitization performed by `make_feed_subfolder` on the feed
title:

    safe_title = "".join(c for c in feed_title if c.isalnum() or c in "-_ ")
    safe_title = safe_title.strip().replace(" ", "_")
-/
def sanitizeTitle (feed_title : PyStr) : PyStr :=
  (pyStrip (feed_title.filter keepChar)).map (fun c => if c = 32 then 95 else c)

/-- Embeds `make_feed_subfolder(feed_title)` from `script.py`.  The
global `_feed_counter` is passed and returned explicitly (the function
increments it by one); directory creation (`os.makedirs`) is I/O, so the
embedding returns the name component of the subfolder, which the code joins
under `Notes/` after truncating to 60 characters
(`folder_name[:60]`). -/
def make_feed_subfolder (feed_counter : Nat) (feed_title : PyStr) : PyStr × Nat :=
  let safe_title := sanitizeTitle feed_title
  let folder_name :=
    if safe_title ≠ [] then fmt04d feed_counter ++ [95] ++ safe_title
    else fmt04d feed_counter ++ [95] ++ pyOf "UnknownFeed"
  (folder_name.take 60, feed_counter + 1)

/-- Embeds `make_note_filename(index)`: `f"{index:04d}.txt"`. -/
def make_note_filename (index : Nat) : PyStr := fmt04d index ++ pyOf ".txt"

/-! ## Feed processing -/

/-- One parsed feed entry.  The optional fields model
`hasattr(entry, ...)`: `none` means the attribute is absent and the
corresponding default is used. -/
structure Entry where
  title : Option PyStr
  summary : Option PyStr
  link : Option PyStr
deriving DecidableEq

/-- A parsed feed as returned by `feedparser.parse`: the `bozo` flag
(set when the feed is malformed), the optional feed title, and the
entry list. -/
structure Feed where
  bozo : Bool
  title : Option PyStr
  entries : List Entry
deriving DecidableEq

/-- Models `entry.title if the title attribute is present else "No Title"`. -/
def entryTitle (e : Entry) : PyStr := e.title.getD (pyOf "No Title")

/-- Models `entry.summary if the summary attribute is present else "No Summary"`. -/
def entryContent (e : Entry) : PyStr := e.summary.getD (pyOf "No Summary")

/-- Models `entry.link if the link attribute is present else ""`. -/
def entryLink (e : Entry) : PyStr := e.link.getD []

/-- The external summarization service (`summarize_with_ai`): given
title and content it either returns `(short_summary, long_summary)` or
raises, modelled by `Except`. -/
abbrev Summarizer := PyStr → PyStr → Except Unit (PyStr × PyStr)

/-- One observable per-entry effect of `process_rss_feed`: a direct
message sent by `send_short_summary_dm`, or a note file written. -/
inductive Event where
  | deliver (title short_summary long_summary : PyStr)
  | writeNote (filename body : PyStr)
deriving DecidableEq

/-- The note body written for an entry:

    f"Title: {title}\nLink: {link}\n\nShort Summary:\n{short_sum}\n\nLong Summary:\n{long_sum}\n"
-/
def note_body (title link short_sum long_sum : PyStr) : PyStr :=
  pyOf "Title: " ++ title ++ pyOf "\nLink: " ++ link ++
  pyOf "\n\nShort Summary:\n" ++ short_sum ++
  pyOf "\n\nLong Summary:\n" ++ long_sum ++ pyOf "\n"

/-- The `for entry in entries` loop of `process_rss_feed`, from a given
`note_index`.  Returns the ordered trace of observable effects and a
flag that is `false` when an uncaught exception from
`summarize_with_ai` aborted the loop: the code has no `try`/`except`
around the summarization call, so a failure there propagates out of
`process_rss_feed`, producing no effect for the failing entry and
skipping all remaining entries.  Within one entry the code first checks
relevance and sends the DM (when relevant), and only then writes the
note file. -/
def processEntries (summarize : Summarizer) (user_data user_profile : PyStr) :
    Nat → List Entry → List Event × Bool
  | _, [] => ([], true)
  | note_index, entry :: rest =>
    match summarize (entryTitle entry) (entryContent entry) with
    | .error _ => ([], false)
    | .ok (short_sum, long_sum) =>
      ((if check_relevance (entryTitle entry) short_sum user_data user_profile then
          [Event.deliver (entryTitle entry) short_sum long_sum]
        else []) ++
        Event.writeNote (make_note_filename note_index)
          (note_body (entryTitle entry) (entryLink entry) short_sum long_sum) ::
        (processEntries summarize user_data user_profile (note_index + 1) rest).1,
       (processEntries summarize user_data user_profile (note_index + 1) rest).2)

/-- Embeds `process_rss_feed(feed_url, user)`.  Feed fetching and the
reads of `user.txt` / `user_profile.txt` are I/O, so the parsed feed and
the two text contents are parameters; subfolder creation is modelled
separately by `make_feed_subfolder`.  A bozo (malformed) feed is logged
and skipped, yielding no effects and no exception. -/
def process_rss_feed (summarize : Summarizer) (feed : Feed)
    (user_data user_profile : PyStr) : List Event × Bool :=
  if feed.bozo then ([], true)
  else processEntries summarize user_data user_profile 1 feed.entries

/-- Number of note files written in a trace. -/
def countNotes (tr : List Event) : Nat :=
  tr.countP (fun ev => match ev with | Event.writeNote _ _ => true | _ => false)

/-- Number of direct-message deliveries in a trace. -/
def countDelivers (tr : List Event) : Nat :=
  tr.countP (fun ev => match ev with | Event.deliver _ _ _ => true | _ => false)

/-- Whether an entry would be delivered: the Relevance Filter applied to
(title, short summary, interest text, profile text), where the short
summary is the one the summarizer returns for this entry. -/
def entryRelevant (summarize : Summarizer) (user_data user_profile : PyStr) (e : Entry) : Bool :=
  match summarize (entryTitle e) (entryContent e) with
  | .ok (short_sum, _) => check_relevance (entryTitle e) short_sum user_data user_profile
  | .error _ => false

/-! ## Reaction handling -/

/-- The article metadata stored in `message_article_map` by
`send_short_summary_dm`. -/
structure ArticleInfo where
  entry_title : PyStr
  short_summary : PyStr
  long_summary : PyStr
deriving DecidableEq

/-- The fields of `discord.RawReactionActionEvent` that
`on_raw_reaction_add` reads. -/
structure ReactionPayload where
  user_id : Nat
  message_id : Nat
  channel_id : Nat
  emoji : PyStr
deriving DecidableEq

/-- The in-memory `message_article_map` dictionary, as an association
list from message id to article info. -/
abbrev MessageArticleMap := List (Nat × ArticleInfo)

/-- Dictionary lookup (`msg_id in message_article_map` plus
`message_article_map[msg_id]`). -/
def lookupMessage (m : MessageArticleMap) (msg_id : Nat) : Option ArticleInfo :=
  match m with
  | [] => none
  | (k, v) :: rest => if k = msg_id then some v else lookupMessage rest msg_id

/-- Embeds `on_raw_reaction_add(payload)`.  The result is the pair of
(messages sent to the channel, lines appended to `user_profile.txt`),
in order.  The code ignores reactions made by the bot itself, then reactions on
untracked messages, then dispatches on the emoji (`👍`, `👎`, `🙌`);
any other emoji falls through with no action.  `bot.fetch_channel` is a
read, not an outbound message, and is not recorded. -/
def on_raw_reaction_add (bot_user_id : Nat) (mam : MessageArticleMap)
    (payload : ReactionPayload) : List PyStr × List PyStr :=
  if payload.user_id = bot_user_id then ([], [])
  else
    match lookupMessage mam payload.message_id with
    | none => ([], [])
    | some info =>
      if payload.emoji = pyOf "👍" then
        ([pyOf "**Detailed Summary for:** " ++ info.entry_title ++ pyOf "\n\n" ++ info.long_summary],
         [pyOf "Positive interest in: " ++ info.entry_title])
      else if payload.emoji = pyOf "👎" then
        ([pyOf "Noted! We won" ++ [39] ++ pyOf "t expand on this topic."],
         [pyOf "Negative interest in: " ++ info.entry_title])
      else if payload.emoji = pyOf "🙌" then
        ([pyOf "Please type your feedback with `!feedback <your feedback here>`."], [])
      else ([], [])

/-! ## Concrete inputs used by counterexamples and witnesses -/

/-- A summarizer that raises on the entry titled `"first"` and succeeds
elsewhere. -/
def cexSummarizer : Summarizer := fun title _ =>
  if title = pyOf "first" then .error () else .ok (pyOf "S", pyOf "L")

def cexEntry1 : Entry := ⟨some (pyOf "first"), some (pyOf "c1"), some (pyOf "l1")⟩

def cexEntry2 : Entry := ⟨some (pyOf "second"), some (pyOf "c2"), some (pyOf "l2")⟩

/-- A well-formed feed whose first entry makes the summarizer raise. -/
def cexFeed : Feed := ⟨false, some (pyOf "F"), [cexEntry1, cexEntry2]⟩

/-- A summarizer that always succeeds, echoing the title as both
summaries. -/
def okSummarizer : Summarizer := fun title _ => .ok (title, title)

/-- A well-formed two-entry feed: with interest text `"quantum"`, the
first entry is relevant and the second is not. -/
def wFeed : Feed :=
  ⟨false, some (pyOf "Tech"),
    [⟨some (pyOf "Quantum leap"), some (pyOf "body"), none⟩,
     ⟨some (pyOf "Gardening"), some (pyOf "body"), none⟩]⟩

/-- A one-entry feed whose entry is relevant to interest text
`"news"`. -/
def c3Feed : Feed :=
  ⟨false, some (pyOf "Daily"), [⟨some (pyOf "news today"), some (pyOf "body"), some (pyOf "lnk")⟩]⟩

theorem isSpaceB_lowerChar (c : Nat) : isSpaceB (lowerChar c) = isSpaceB c := by
  unfold lowerChar
  split
  · next h =>
    have h1 : isSpaceB (c + 32) = false := by simp [isSpaceB]; omega
    have h2 : isSpaceB c = false := by simp [isSpaceB]; omega
    rw [h1, h2]
  · rfl

theorem splitAux_lower (s acc : List Nat) :
    splitAux (lowerStr s) (lowerStr acc) = (splitAux s acc).map lowerStr := by
  induction s generalizing acc with
  | nil =>
    by_cases h : acc = []
    · subst h; rfl
    · simp [splitAux, lowerStr, h, List.map_eq_nil_iff]
  | cons c cs ih =>
    show splitAux (lowerChar c :: lowerStr cs) (lowerStr acc) = _
    rw [splitAux]
    rw [show (splitAux (c :: cs) acc) = if isSpaceB c then
          (if acc = [] then splitAux cs [] else acc.reverse :: splitAux cs [])
        else splitAux cs (c :: acc) from rfl]
    rw [isSpaceB_lowerChar]
    by_cases hs : isSpaceB c = true
    · rw [hs]
      simp only [if_true]
      by_cases h : acc = []
      · subst h
        simp only [lowerStr, List.map_nil, if_true]
        exact ih []
      · have h' : lowerStr acc ≠ [] := by simpa [lowerStr, List.map_eq_nil_iff] using h
        rw [if_neg h', if_neg h]
        have hx : splitAux (lowerStr cs) [] = List.map lowerStr (splitAux cs []) := by
          have h0 := ih []
          rwa [show lowerStr [] = [] from rfl] at h0
        rw [List.map_cons, hx]
        congr 1
        exact (List.map_reverse lowerChar acc).symm
    · rw [Bool.not_eq_true] at hs
      rw [hs]
      show splitAux (lowerStr cs) (lowerChar c :: lowerStr acc) =
        List.map lowerStr (splitAux cs (c :: acc))
      have hx := ih (c :: acc)
      simpa [lowerStr, List.map_cons] using hx

theorem pySplit_lower (s : PyStr) :
    pySplit (lowerStr s) = (pySplit s).map lowerStr := by
  have := splitAux_lower s []
  simpa [pySplit, lowerStr] using this

theorem mem_pySplit_lower {k s : PyStr} (h : k ∈ pySplit s) :
    lowerStr k ∈ pySplit (lowerStr s) := by
  rw [pySplit_lower]
  exact List.mem_map_of_mem lowerStr h

/-- C4: with both keyword sources empty, the relevance check is false
for every title and summary text. -/
theorem C4_check_relevance_empty_sources (title text : PyStr) :
    check_relevance title text [] [] = false := rfl

/-- C9: the relevance check is unchanged when the interest text and the
profile text are swapped. -/
theorem C9_check_relevance_comm (title text a b : PyStr) :
    check_relevance title text a b = check_relevance title text b a := by
  simp [check_relevance, List.any_append, Bool.or_comm]

/-- C5 counterexample: take title `"ab"`, summary text `"cd"`, interest
text `"bc"`, profile text empty.  The token `"bc"` of the interest text
is (lowercased) a substring of the lowercased concatenation of title and
summary (`"abcd"`), yet `check_relevance` returns `false`, because the
code builds its haystack with a space between title and summary
(`f"{title.lower()} {text.lower()}"` gives `"ab cd"`). -/
theorem C5_counterexample :
    (pyOf "bc") ∈ pySplit (pyOf "bc") ∧
    containsSubstr (lowerStr (pyOf "ab") ++ lowerStr (pyOf "cd")) (lowerStr (pyOf "bc")) = true ∧
    check_relevance (pyOf "ab") (pyOf "cd") (pyOf "bc") (pyOf "") = false := by
  decide

/-- C5 (amended): for every whitespace-delimited token `k` of the
interest text or the profile text, and every article whose haystack —
the lowercased title, a single space, then the lowercased summary text —
contains the lowercased `k` as a substring, the relevance check returns
true. -/
theorem C5_token_substring_relevant
    (title text interest profile k : PyStr)
    (hk : k ∈ pySplit interest ∨ k ∈ pySplit profile)
    (hsub : containsSubstr (lowerStr title ++ [32] ++ lowerStr text) (lowerStr k) = true) :
    check_relevance title text interest profile = true := by
  unfold check_relevance
  rw [List.any_eq_true]
  refine ⟨lowerStr k, ?_, hsub⟩
  rcases hk with h | h
  · exact List.mem_append_left _ (mem_pySplit_lower h)
  · exact List.mem_append_right _ (mem_pySplit_lower h)

/-- C5 witness: the token `"go"` of the interest text `"go lang"` occurs
in the lowercased haystack of the article, so the article is relevant. -/
theorem C5_token_substring_relevant_witness :
    check_relevance (pyOf "Go 1.22 released") (pyOf "details inside") (pyOf "go lang") (pyOf "") = true :=
  C5_token_substring_relevant (pyOf "Go 1.22 released") (pyOf "details inside")
    (pyOf "go lang") (pyOf "") (pyOf "go") (Or.inl (by decide)) (by decide)

theorem processEntries_counts (summarize : Summarizer) (ud up : PyStr)
    (entries : List Entry) :
    ∀ i : Nat, (∀ e ∈ entries, (summarize (entryTitle e) (entryContent e)).isOk = true) →
      countNotes (processEntries summarize ud up i entries).1 = entries.length ∧
      countDelivers (processEntries summarize ud up i entries).1 =
        entries.countP (entryRelevant summarize ud up) := by
  induction entries with
  | nil =>
    intro i _
    simp [processEntries, countNotes, countDelivers]
  | cons e rest ih =>
    intro i h
    have he := h e (List.mem_cons_self e rest)
    obtain ⟨short_sum, long_sum, hok⟩ :
        ∃ s l, summarize (entryTitle e) (entryContent e) = .ok (s, l) := by
      cases hsum : summarize (entryTitle e) (entryContent e) with
      | error err => rw [hsum] at he; simp [Except.isOk, Except.toBool] at he
      | ok p =>
        obtain ⟨s, l⟩ := p
        exact ⟨s, l, rfl⟩
    have hrest := ih (i + 1) (fun e' he' => h e' (List.mem_cons_of_mem e he'))
    have hrel : entryRelevant summarize ud up e =
        check_relevance (entryTitle e) short_sum ud up := by
      simp [entryRelevant, hok]
    constructor
    · simp only [processEntries, hok, countNotes, List.countP_append, List.countP_cons]
      by_cases hc : check_relevance (entryTitle e) short_sum ud up = true
      · simp [hc, countNotes] at hrest ⊢
        omega
      · rw [Bool.not_eq_true] at hc
        simp [hc, countNotes] at hrest ⊢
        omega
    · simp only [processEntries, hok, countDelivers, List.countP_append, List.countP_cons,
        List.countP_nil, hrel]
      by_cases hc : check_relevance (entryTitle e) short_sum ud up = true
      · simp [hc, countDelivers] at hrest ⊢
        omega
      · rw [Bool.not_eq_true] at hc
        simp [hc, countDelivers] at hrest ⊢
        omega

/-- C2: on a well-formed feed with `N` entries, when every summarization
call succeeds, `process_rss_feed` writes exactly `N` notes (one per
entry, regardless of relevance) and sends exactly `M` direct messages,
where `M` is the number of entries on which the Relevance Filter returns
true for (title, short summary, interest text, profile text). -/
theorem C2_note_and_delivery_counts (summarize : Summarizer) (feed : Feed)
    (ud up : PyStr) (hbozo : feed.bozo = false)
    (hok : ∀ e ∈ feed.entries, (summarize (entryTitle e) (entryContent e)).isOk = true) :
    countNotes (process_rss_feed summarize feed ud up).1 = feed.entries.length ∧
    countDelivers (process_rss_feed summarize feed ud up).1 =
      feed.entries.countP (entryRelevant summarize ud up) := by
  unfold process_rss_feed
  rw [hbozo]
  exact processEntries_counts summarize ud up feed.entries 1 hok

/-- C2 witness: the two-entry feed `wFeed` with interest text
`"quantum"` yields two notes and one delivery. -/
theorem C2_note_and_delivery_counts_witness :
    countNotes (process_rss_feed okSummarizer wFeed (pyOf "quantum") (pyOf "")).1 = 2 ∧
    countDelivers (process_rss_feed okSummarizer wFeed (pyOf "quantum") (pyOf "")).1 = 1 := by
  have h := C2_note_and_delivery_counts okSummarizer wFeed (pyOf "quantum") (pyOf "")
    rfl (by decide)
  exact ⟨h.1.trans (by decide), h.2.trans (by decide)⟩

/-- C1 counterexample: in `cexFeed` the summarizer raises on the first
entry.  The claim says only that entry is skipped and the second entry
is still processed; the code instead produces no effect at all (the
exception aborts the loop: zero notes, aborted flag), although the
second entry on its own would have produced its note. -/
theorem C1_counterexample :
    process_rss_feed cexSummarizer cexFeed (pyOf "second") (pyOf "") = ([], false) ∧
    countNotes (process_rss_feed cexSummarizer cexFeed (pyOf "second") (pyOf "")).1 = 0 ∧
    (processEntries cexSummarizer (pyOf "second") (pyOf "") 2 [cexEntry2]).2 = true ∧
    countNotes (processEntries cexSummarizer (pyOf "second") (pyOf "") 2 [cexEntry2]).1 = 1 := by
  decide

/-- C1 (amended): a summarization failure for one entry aborts the
remaining entries of the feed: the loop produces no note and no delivery
for the failing entry nor for any entry after it, and reports the
abort. -/
theorem C1_summarizer_failure_aborts_feed (summarize : Summarizer)
    (ud up : PyStr) (i : Nat) (e : Entry) (rest : List Entry)
    (herr : summarize (entryTitle e) (entryContent e) = .error ()) :
    processEntries summarize ud up i (e :: rest) = ([], false) := by
  simp [processEntries, herr]

/-- C1 witness: the aborting run on the entry list of `cexFeed`. -/
theorem C1_summarizer_failure_aborts_feed_witness :
    processEntries cexSummarizer (pyOf "second") (pyOf "") 1 [cexEntry1, cexEntry2] = ([], false) :=
  C1_summarizer_failure_aborts_feed cexSummarizer (pyOf "second") (pyOf "") 1
    cexEntry1 [cexEntry2] rfl

/-- C3 counterexample: on the one-entry relevant feed `c3Feed`, the
trace of `process_rss_feed` is the delivery event followed by the
note-write event, so the note is *not* persisted before the Relevance
Filter is called and the delivery is made — the code performs step (d)
before step (c). -/
theorem C3_counterexample :
    (process_rss_feed okSummarizer c3Feed (pyOf "news") (pyOf "")).1 =
      [Event.deliver (pyOf "news today") (pyOf "news today") (pyOf "news today"),
       Event.writeNote (make_note_filename 1)
         (note_body (pyOf "news today") (pyOf "lnk") (pyOf "news today") (pyOf "news today"))] := by
  decide

/-- C3 (amended): the per-entry steps run in the opposite of the claimed
order: for every entry whose summarization succeeds, the code first
calls the Relevance Filter and sends the delivery (when relevant), and
only then persists the note — in the trace, the optional per-entry
`deliver` event precedes its `writeNote` event, which precedes all
events of later entries. -/
theorem C3_delivery_precedes_note (summarize : Summarizer)
    (ud up : PyStr) (i : Nat) (e : Entry) (rest : List Entry)
    (short_sum long_sum : PyStr)
    (hok : summarize (entryTitle e) (entryContent e) = .ok (short_sum, long_sum)) :
    (processEntries summarize ud up i (e :: rest)).1 =
      (if check_relevance (entryTitle e) short_sum ud up then
        [Event.deliver (entryTitle e) short_sum long_sum]
      else []) ++
      Event.writeNote (make_note_filename i)
        (note_body (entryTitle e) (entryLink e) short_sum long_sum) ::
      (processEntries summarize ud up (i + 1) rest).1 := by
  simp [processEntries, hok]

/-- C3 witness: the amended order on the single entry of `c3Feed`. -/
theorem C3_delivery_precedes_note_witness :
    (processEntries okSummarizer (pyOf "news") (pyOf "") 1 c3Feed.entries).1 =
      [Event.deliver (pyOf "news today") (pyOf "news today") (pyOf "news today"),
       Event.writeNote (make_note_filename 1)
         (note_body (pyOf "news today") (pyOf "lnk") (pyOf "news today") (pyOf "news today"))] := by
  have h := C3_delivery_precedes_note okSummarizer (pyOf "news") (pyOf "") 1
    ⟨some (pyOf "news today"), some (pyOf "body"), some (pyOf "lnk")⟩ []
    (pyOf "news today") (pyOf "news today") rfl
  simpa using h

/-- C6: a reaction event whose message identifier is not tracked in
`message_article_map` is ignored silently: no profile line is appended
and no message is sent. -/
theorem C6_untracked_reaction_ignored (bot_user_id : Nat)
    (mam : MessageArticleMap) (payload : ReactionPayload)
    (h : lookupMessage mam payload.message_id = none) :
    on_raw_reaction_add bot_user_id mam payload = ([], []) := by
  unfold on_raw_reaction_add
  by_cases hbot : payload.user_id = bot_user_id
  · rw [if_pos hbot]
  · rw [if_neg hbot, h]

/-- C6 witness: a reaction on message 9 while only message 5 is
tracked. -/
theorem C6_untracked_reaction_ignored_witness :
    on_raw_reaction_add 7
      [(5, ⟨pyOf "T", pyOf "S", pyOf "L"⟩)]
      ⟨3, 9, 1, pyOf "👍"⟩ = ([], []) :=
  C6_untracked_reaction_ignored 7 [(5, ⟨pyOf "T", pyOf "S", pyOf "L"⟩)]
    ⟨3, 9, 1, pyOf "👍"⟩ rfl

/-- C8: a reaction on a tracked message whose emoji is none of the three
feedback affordances (👍, 👎, 🙌) appends no profile line and sends no
message. -/
theorem C8_unknown_emoji_ignored (bot_user_id : Nat)
    (mam : MessageArticleMap) (payload : ReactionPayload) (info : ArticleInfo)
    (htracked : lookupMessage mam payload.message_id = some info)
    (h1 : payload.emoji ≠ pyOf "👍")
    (h2 : payload.emoji ≠ pyOf "👎")
    (h3 : payload.emoji ≠ pyOf "🙌") :
    on_raw_reaction_add bot_user_id mam payload = ([], []) := by
  unfold on_raw_reaction_add
  by_cases hbot : payload.user_id = bot_user_id
  · rw [if_pos hbot]
  · rw [if_neg hbot, htracked]
    simp only [if_neg h1, if_neg h2, if_neg h3]

/-- C8 witness: a heart reaction on the tracked message 5. -/
theorem C8_unknown_emoji_ignored_witness :
    on_raw_reaction_add 7
      [(5, ⟨pyOf "T", pyOf "S", pyOf "L"⟩)]
      ⟨3, 5, 1, pyOf "❤"⟩ = ([], []) :=
  C8_unknown_emoji_ignored 7 [(5, ⟨pyOf "T", pyOf "S", pyOf "L"⟩)]
    ⟨3, 5, 1, pyOf "❤"⟩ ⟨pyOf "T", pyOf "S", pyOf "L"⟩
    rfl (by decide) (by decide) (by decide)

theorem decDigitsAux_digits :
    ∀ fuel n c, c ∈ decDigitsAux fuel n → 48 ≤ c ∧ c ≤ 57 := by
  intro fuel
  induction fuel with
  | zero => intro n c hc; simp [decDigitsAux] at hc
  | succ f ih =>
    intro n c hc
    unfold decDigitsAux at hc
    by_cases hn : n < 10
    · rw [if_pos hn] at hc
      simp at hc
      omega
    · rw [if_neg hn] at hc
      rcases List.mem_append.mp hc with h | h
      · exact ih _ _ h
      · simp at h
        have : n % 10 < 10 := Nat.mod_lt n (by omega)
        omega

theorem fmt04d_digits {n c : Nat} (hc : c ∈ fmt04d n) : 48 ≤ c ∧ c ≤ 57 := by
  unfold fmt04d at hc
  by_cases hn : n < 10000
  · rw [if_pos hn] at hc
    have h1 : n / 1000 < 10 := by omega
    have h2 : n / 100 % 10 < 10 := Nat.mod_lt _ (by omega)
    have h3 : n / 10 % 10 < 10 := Nat.mod_lt _ (by omega)
    have h4 : n % 10 < 10 := Nat.mod_lt _ (by omega)
    simp at hc
    omega
  · rw [if_neg hn] at hc
    exact decDigitsAux_digits _ _ _ hc

theorem pyStrip_subset (s : PyStr) : pyStrip s ⊆ s := by
  intro c hc
  unfold pyStrip at hc
  rw [List.mem_reverse] at hc
  have h1 := (List.dropWhile_suffix isSpaceB).sublist.subset hc
  rw [List.mem_reverse] at h1
  exact (List.dropWhile_suffix isSpaceB).sublist.subset h1

theorem mem_sanitizeTitle {c : Nat} {t : PyStr} (hc : c ∈ sanitizeTitle t) :
    pyIsAlnum c = true ∨ c = 45 ∨ c = 95 := by
  unfold sanitizeTitle at hc
  rcases List.mem_map.mp hc with ⟨c', hc', hmap⟩
  have hfilter : c' ∈ t.filter keepChar := pyStrip_subset _ hc'
  have hkeep : keepChar c' = true := (List.mem_filter.mp hfilter).2
  unfold keepChar at hkeep
  by_cases hsp : c' = 32
  · subst hsp
    right; right
    simp at hmap
    omega
  · rw [if_neg hsp] at hmap
    subst hmap
    simp only [pyIsAlnum, Bool.or_eq_true, decide_eq_true_eq]
    simp only [pyIsAlnum, Bool.or_eq_true, decide_eq_true_eq] at hkeep
    omega

/-- C7: for every feed title (including the empty string and strings of
only disallowed characters) and every counter value, the subfolder name
produced by `make_feed_subfolder` contains no path-separator character
(`/` = 47, `\` = 92), has length at most 60, and falls back to the
placeholder `f"{counter:04d}_UnknownFeed"` (truncated to 60) when
sanitization yields the empty string. -/
theorem C7_sanitized_folder_name (feed_counter : Nat) (feed_title : PyStr) :
    (∀ c ∈ (make_feed_subfolder feed_counter feed_title).1, c ≠ 47 ∧ c ≠ 92) ∧
    (make_feed_subfolder feed_counter feed_title).1.length ≤ 60 ∧
    (sanitizeTitle feed_title = [] →
      (make_feed_subfolder feed_counter feed_title).1 =
        (fmt04d feed_counter ++ [95] ++ pyOf "UnknownFeed").take 60) := by
  refine ⟨?_, ?_, ?_⟩
  · intro c hc
    unfold make_feed_subfolder at hc
    simp only at hc
    have hc' := List.take_subset 60 _ hc
    have : c ∈ fmt04d feed_counter ++ [95] ++ sanitizeTitle feed_title ∨
        c ∈ fmt04d feed_counter ++ [95] ++ pyOf "UnknownFeed" := by
      by_cases hemp : sanitizeTitle feed_title ≠ []
      · rw [if_pos hemp] at hc'; exact Or.inl hc'
      · rw [if_neg hemp] at hc'; exact Or.inr hc'
    rcases this with h | h
    · rcases List.mem_append.mp h with h' | h'
      · rcases List.mem_append.mp h' with h'' | h''
        · have := fmt04d_digits h''
          omega
        · simp at h''
          omega
      · rcases mem_sanitizeTitle h' with h'' | h'' | h''
        · simp [pyIsAlnum] at h''
          omega
        · omega
        · omega
    · rcases List.mem_append.mp h with h' | h'
      · rcases List.mem_append.mp h' with h'' | h''
        · have := fmt04d_digits h''
          omega
        · simp at h''
          omega
      · have hU : ∀ x ∈ pyOf "UnknownFeed", x ≠ 47 ∧ x ≠ 92 := by decide
        exact hU c h'
  · unfold make_feed_subfolder
    simp only
    rw [List.length_take]
    omega
  · intro hemp
    unfold make_feed_subfolder
    simp [hemp]

/-- C7 witness: the title `"!!!"` sanitizes to the empty string, so the
name falls back to `"0001_UnknownFeed"`; its characters and length obey
the bounds. -/
theorem C7_sanitized_folder_name_witness :
    sanitizeTitle (pyOf "!!!") = [] ∧
    (make_feed_subfolder 1 (pyOf "!!!")).1 =
      (fmt04d 1 ++ [95] ++ pyOf "UnknownFeed").take 60 ∧
    (make_feed_subfolder 1 (pyOf "!!!")).1.length ≤ 60 :=
  ⟨by decide,
   (C7_sanitized_folder_name 1 (pyOf "!!!")).2.2 (by decide),
   (C7_sanitized_folder_name 1 (pyOf "!!!")).2.1⟩

theorem fmt04d_length {n : Nat} (h : n < 10000) : (fmt04d n).length = 4 := by
  simp [fmt04d, h]

theorem fmt04d_inj {a b : Nat} (ha : a < 10000) (hb : b < 10000)
    (h : fmt04d a = fmt04d b) : a = b := by
  simp only [fmt04d, if_pos ha, if_pos hb, List.cons.injEq, and_true] at h
  omega

/-- C10: within a run, the subfolder name begins with the 4-digit
zero-padded counter (it survives the 60-character truncation), the
counter increases by one per call, and two calls with distinct counter
values below 10000 return distinct names, even for identical or empty
feed titles. -/
theorem C10_distinct_subfolders (c1 c2 : Nat) (t1 t2 : PyStr)
    (h1 : c1 < 10000) (h2 : c2 < 10000) (hne : c1 ≠ c2) :
    (make_feed_subfolder c1 t1).1.take 4 = fmt04d c1 ∧
    (make_feed_subfolder c1 t1).2 = c1 + 1 ∧
    (make_feed_subfolder c1 t1).1 ≠ (make_feed_subfolder c2 t2).1 := by
  have hstart : ∀ c : Nat, c < 10000 → ∀ t : PyStr,
      (make_feed_subfolder c t).1.take 4 = fmt04d c := by
    intro c hc t
    unfold make_feed_subfolder
    simp only
    rw [List.take_take]
    norm_num
    by_cases hemp : sanitizeTitle t = []
    · rw [if_pos hemp]
      exact List.take_left' (fmt04d_length hc)
    · rw [if_neg hemp]
      exact List.take_left' (fmt04d_length hc)
  refine ⟨hstart c1 h1 t1, rfl, ?_⟩
  intro heq
  have : fmt04d c1 = fmt04d c2 := by
    rw [← hstart c1 h1 t1, ← hstart c2 h2 t2, heq]
  exact hne (fmt04d_inj h1 h2 this)

/-- C10 witness: counters 1 and 2 with the empty title give the names
`"0001_UnknownFeed"` and `"0002_UnknownFeed"`, which differ; the counter
advances to 2. -/
theorem C10_distinct_subfolders_witness :
    (make_feed_subfolder 1 []).1.take 4 = fmt04d 1 ∧
    (make_feed_subfolder 1 []).2 = 2 ∧
    (make_feed_subfolder 1 []).1 ≠ (make_feed_subfolder 2 []).1 :=
  C10_distinct_subfolders 1 2 [] [] (by decide) (by decide) (by decide)
